import Mathlib

/-!
# Verification of the auto-researcher ingestion / filter core

Shallow embedding of the repository's filter pipeline (`src/filter.py`,
class `ContentFilter`) and of the relevant parts of the fetch
orchestrator and source adapters (`src/crawler.py`, class `Crawler`),
together with proofs of the claims about them.

Modelling conventions:
* Python `None` for optional string fields is `Option.none`; JSON values
  (including JSON `null`, which Python's json decoder turns into `None`)
  are modelled by the inductive type `Json` below, with numbers restricted
  to integers (no claim depends on float formatting).
* Python's `datetime` values are instants; we represent an instant by its
  second count on a fixed proleptic-Gregorian scale (`DT.toSecs`), which
  `datetime` comparison and `timedelta` arithmetic agree with exactly.
* The regex engine used by the regex filter stage is abstracted as an
  opaque-to-the-proof total matching function passed as a parameter
  (no claim depends on regex semantics).
* Network and HTML layers are outside the embedding: adapter code is
  embedded from the point where the decoded response body is in hand,
  and the orchestrator is embedded over an abstract per-source adapter
  outcome (`Except`, where `Except.error` stands for a raised exception).
-/

/-- A decoded JSON value (Python object produced by `response.json()`).
Numbers are modelled as integers. -/
inductive Json where
  | null : Json
  | bool (b : Bool) : Json
  | num (n : Int) : Json
  | str (s : String) : Json
  | arr (elems : List Json) : Json
  | obj (fields : List (String × Json)) : Json

/-- Python truthiness of a decoded JSON value: `None`, `False`, `0`,
empty string, empty list and empty dict are falsy. -/
def pyTruthy : Json → Bool
  | Json.null => false
  | Json.bool b => b
  | Json.num n => n != 0
  | Json.str s => s != ""
  | Json.arr l => !l.isEmpty
  | Json.obj kvs => !kvs.isEmpty

/-- First-match lookup in an association list, modelling Python dict
indexing (dict keys are unique, and dicts preserve insertion order). -/
def jsonLookup (kvs : List (String × Json)) (k : String) : Option Json :=
  match kvs with
  | [] => none
  | (k', v) :: rest => if k' = k then some v else jsonLookup rest k

/-- `d.get(k, default)`: the stored value if the key is present (even when
that value is JSON null / Python `None`), otherwise the default. -/
def jsonGetD (kvs : List (String × Json)) (k : String) (dflt : Json) : Json :=
  (jsonLookup kvs k).getD dflt

/-- `d.get(k)` with no default: absent keys give Python `None`, which
coincides with a stored JSON null. -/
def jsonGetN (kvs : List (String × Json)) (k : String) : Json :=
  jsonGetD kvs k Json.null

mutual
/-- Python `repr` of a decoded JSON value (used by `str` on containers).
Escaping of quote characters inside strings is not modelled. -/
def pyRepr : Json → String
  | Json.null => "None"
  | Json.bool b => if b then "True" else "False"
  | Json.num n => toString n
  | Json.str s => String.mk [Char.ofNat 39] ++ s ++ String.mk [Char.ofNat 39]
  | Json.arr l => "[" ++ pyReprList l ++ "]"
  | Json.obj kvs => "\x7b" ++ pyReprObj kvs ++ "\x7d"

/-- Comma-separated `repr`s of list elements. -/
def pyReprList : List Json → String
  | [] => ""
  | [x] => pyRepr x
  | x :: rest => pyRepr x ++ ", " ++ pyReprList rest

/-- Comma-separated `repr`s of dict entries. -/
def pyReprObj : List (String × Json) → String
  | [] => ""
  | [(k, v)] => String.mk [Char.ofNat 39] ++ k ++ String.mk [Char.ofNat 39] ++ ": " ++ pyRepr v
  | (k, v) :: rest =>
      String.mk [Char.ofNat 39] ++ k ++ String.mk [Char.ofNat 39] ++ ": " ++ pyRepr v
        ++ ", " ++ pyReprObj rest
end

/-- Python `str()` of a decoded JSON value: identity on strings,
`repr`-based on everything else. -/
def pyStr : Json → String
  | Json.str s => s
  | v => pyRepr v

/-- Python iteration over a decoded JSON value, as used by
`for idx, item in enumerate(data_list)`: lists yield their elements,
strings their one-character substrings, dicts their keys; numbers,
booleans and `None` are not iterable (a `TypeError` is raised, modelled
as `none`). -/
def pyIter : Json → Option (List Json)
  | Json.arr l => some l
  | Json.str s => some (s.data.map (fun c => Json.str (String.mk [c])))
  | Json.obj kvs => some (kvs.map (fun kv => Json.str kv.1))
  | _ => none

/-- `FetchedItem` (src/crawler.py, lines 17-32): the common record shape
every adapter produces and every filter stage consumes.  The dataclass
declares `title: str` and `content: str` (non-optional) while `url`,
`date`, `authors`, `abstract`, `categories` are optional; the filter
pipeline operates on records satisfying those declarations.  The
`metadata` field holds arbitrary adapter-specific values and is never
read by any filter stage; its type is a parameter. -/
structure FetchedItem (μ : Type) where
  source : String
  title : String
  content : String
  url : Option String := none
  date : Option String := none
  authors : Option (List String) := none
  abstract : Option String := none
  categories : Option (List String) := none
  metadata : μ
deriving DecidableEq

/-- Runtime-faithful record as actually constructed by the Python
adapters in src/crawler.py: the dataclass performs no validation, so the
`title`/`content`/`url`/`date`/`authors`/`abstract`/`categories` slots
hold whatever Python value (here: decoded-JSON value) the adapter
computed, including `None`. -/
structure RawItem where
  source : String
  title : Json
  content : Json
  url : Json := Json.null
  date : Json := Json.null
  authors : Json := Json.null
  abstract : Json := Json.null
  categories : Json := Json.null
  metadata : List (String × Json) := []

/-- `FilterConfig` (src/config.py, lines 26-43).  The Python field named
`match` is called `matchMode` here because `match` is a Lean keyword. -/
structure FilterConfig where
  type : String
  pattern : Option String := none
  action : String := "keep"
  keywords : Option (List String) := none
  matchMode : String := "any"
  min : Option Int := none
  max : Option Int := none
  fields : Option (List String) := none
  scope : String := "all"
  case_sensitive : Bool := false
  days : Option Int := none
  hours : Option Int := none
deriving DecidableEq

/-- `SourceConfig` (src/config.py, lines 13-23). -/
structure SourceConfig where
  type : String
  name : String
  url : String
  method : String := "GET"
  headers : List (String × String) := []
  selector : Option String := none
  fields : Option (List (String × String)) := none
  auth : Option (List (String × String)) := none
deriving DecidableEq

/-- Python `str.lower()` (modelled on the ASCII range, which is all the
source's configuration and the claims exercise). -/
def pyLower (s : String) : String :=
  String.mk (s.data.map Char.toLower)

/-- Python `str.upper()` (ASCII model, as for `pyLower`). -/
def pyUpper (s : String) : String :=
  String.mk (s.data.map Char.toUpper)

/-- Substring test on character lists: does `needle` occur contiguously
inside `hay`? -/
def hasSubstr (needle : List Char) : List Char → Bool
  | [] => needle.isEmpty
  | c :: cs => needle.isPrefixOf (c :: cs) || hasSubstr needle cs

/-- Python's `needle in hay` on strings. -/
def pyIn (needle hay : String) : Bool :=
  hasSubstr needle.data hay.data

/-- The whitespace class stripped by Python's `str.strip()` and matched
by `\s` (ASCII part). -/
def pySpace (c : Char) : Bool :=
  c = ' ' || c = Char.ofNat 9 || c = Char.ofNat 10 || c = Char.ofNat 11 ||
    c = Char.ofNat 12 || c = Char.ofNat 13

/-- Python `str.strip()`. -/
def pyStrip (s : String) : String :=
  String.mk (((s.data.dropWhile pySpace).reverse.dropWhile pySpace).reverse)

/-- Python slicing `s[:n]` (by code point, as in Python). -/
def pySlice (s : String) (n : Nat) : String :=
  String.mk (s.data.take n)

/-! ## Date parsing (src/filter.py, lines 198-216)

`_filter_date` tries `datetime.strptime` on the stripped date string with
the format list `["%Y-%m-%d", "%Y-%m-%dT%H:%M:%S", "%Y-%m-%d %H:%M:%S",
"%d %b %Y", "%Y"]`, accepting the first format that parses.  CPython's
`_strptime` compiles each format to a regex (with IGNORECASE, so the
literal `T` also matches `t` and month names match in any case; a space
in the format matches one or more whitespace characters) that must match
the whole string; the `datetime` constructor then rejects impossible
dates (year 0, day past the month's length).  In all five formats every
one-or-two-digit numeric field is followed by a non-digit literal,
whitespace, or the end of the string, so taking the first (longest)
matching alternative of each field never loses a parse that regex
backtracking would find; the token matcher below therefore returns the
first alternative, in the alternation order of `_strptime`'s regexes. -/

/-- One token of a compiled strptime format. -/
inductive Tok where
  | year : Tok
  | month : Tok
  | day : Tok
  | hour : Tok
  | minute : Tok
  | second : Tok
  | monthName : Tok
  | lit (c : Char) : Tok
  | ws : Tok
deriving DecidableEq

/-- Digit test on a character. -/
def isDig (c : Char) : Bool :=
  48 ≤ c.toNat && c.toNat ≤ 57

/-- Numeric value of a digit character. -/
def dval (c : Char) : Nat :=
  c.toNat - 48

/-- Lower-cased month abbreviations of the C locale, in month order
(matched case-insensitively by strptime's `%b`). -/
def monthNames : List String :=
  ["jan", "feb", "mar", "apr", "may", "jun", "jul", "aug", "sep", "oct", "nov", "dec"]

/-- Match one format token at the head of the character list, returning
the captured numeric value (0 for literals and whitespace) and the rest.
The numeric alternatives mirror `_strptime`'s regex fragments:
`%Y` is four digits, `%m` is `1[0-2]|0[1-9]|[1-9]`, `%d` is
`3[01]|[12][0-9]|0[1-9]|[1-9]`, `%H` is `2[0-3]|[0-1][0-9]|[0-9]`, and
`%M`/`%S` are `[0-5][0-9]|[0-9]`. -/
def matchTok : Tok → List Char → Option (Nat × List Char)
  | Tok.year, c1 :: c2 :: c3 :: c4 :: rest =>
      if isDig c1 && isDig c2 && isDig c3 && isDig c4 then
        some (dval c1 * 1000 + dval c2 * 100 + dval c3 * 10 + dval c4, rest)
      else none
  | Tok.year, _ => none
  | Tok.month, c1 :: c2 :: rest =>
      if c1 = '1' ∧ '0' ≤ c2 ∧ c2 ≤ '2' then some (10 + dval c2, rest)
      else if c1 = '0' ∧ '1' ≤ c2 ∧ c2 ≤ '9' then some (dval c2, rest)
      else if '1' ≤ c1 ∧ c1 ≤ '9' then some (dval c1, c2 :: rest)
      else none
  | Tok.month, [c1] =>
      if '1' ≤ c1 ∧ c1 ≤ '9' then some (dval c1, []) else none
  | Tok.month, [] => none
  | Tok.day, c1 :: c2 :: rest =>
      if c1 = '3' ∧ ('0' = c2 ∨ c2 = '1') then some (30 + dval c2, rest)
      else if ('1' = c1 ∨ c1 = '2') ∧ isDig c2 then some (10 * dval c1 + dval c2, rest)
      else if c1 = '0' ∧ '1' ≤ c2 ∧ c2 ≤ '9' then some (dval c2, rest)
      else if '1' ≤ c1 ∧ c1 ≤ '9' then some (dval c1, c2 :: rest)
      else none
  | Tok.day, [c1] =>
      if '1' ≤ c1 ∧ c1 ≤ '9' then some (dval c1, []) else none
  | Tok.day, [] => none
  | Tok.hour, c1 :: c2 :: rest =>
      if c1 = '2' ∧ '0' ≤ c2 ∧ c2 ≤ '3' then some (20 + dval c2, rest)
      else if ('0' = c1 ∨ c1 = '1') ∧ isDig c2 then some (10 * dval c1 + dval c2, rest)
      else if isDig c1 then some (dval c1, c2 :: rest)
      else none
  | Tok.hour, [c1] =>
      if isDig c1 then some (dval c1, []) else none
  | Tok.hour, [] => none
  | Tok.minute, c1 :: c2 :: rest =>
      if '0' ≤ c1 ∧ c1 ≤ '5' ∧ isDig c2 then some (10 * dval c1 + dval c2, rest)
      else if isDig c1 then some (dval c1, c2 :: rest)
      else none
  | Tok.minute, [c1] =>
      if isDig c1 then some (dval c1, []) else none
  | Tok.minute, [] => none
  | Tok.second, c1 :: c2 :: rest =>
      if '0' ≤ c1 ∧ c1 ≤ '5' ∧ isDig c2 then some (10 * dval c1 + dval c2, rest)
      else if isDig c1 then some (dval c1, c2 :: rest)
      else none
  | Tok.second, [c1] =>
      if isDig c1 then some (dval c1, []) else none
  | Tok.second, [] => none
  | Tok.monthName, c1 :: c2 :: c3 :: rest =>
      match monthNames.findIdx? (fun nm => nm = String.mk [c1.toLower, c2.toLower, c3.toLower]) with
      | some i => some (i + 1, rest)
      | none => none
  | Tok.monthName, _ => none
  | Tok.lit c, c' :: rest =>
      if c'.toLower = c.toLower then some (0, rest) else none
  | Tok.lit _, [] => none
  | Tok.ws, cs =>
      if (cs.takeWhile pySpace).isEmpty then none
      else some (0, cs.dropWhile pySpace)

/-- The components captured by one strptime parse; unset components keep
strptime's defaults (year 1900, January 1st, midnight). -/
structure DT where
  y : Nat := 1900
  m : Nat := 1
  d : Nat := 1
  h : Nat := 0
  mi : Nat := 0
  s : Nat := 0
deriving DecidableEq

/-- Record a captured component. -/
def applyTok : Tok → Nat → DT → DT
  | Tok.year, v, p => { p with y := v }
  | Tok.month, v, p => { p with m := v }
  | Tok.day, v, p => { p with d := v }
  | Tok.hour, v, p => { p with h := v }
  | Tok.minute, v, p => { p with mi := v }
  | Tok.second, v, p => { p with s := v }
  | Tok.monthName, v, p => { p with m := v }
  | Tok.lit _, _, p => p
  | Tok.ws, _, p => p

/-- Run a token list over the input; the whole input must be consumed
(strptime rejects trailing characters). -/
def runToks : List Tok → List Char → DT → Option DT
  | [], cs, acc => if cs.isEmpty then some acc else none
  | t :: ts, cs, acc =>
      match matchTok t cs with
      | some (v, rest) => runToks ts rest (applyTok t v acc)
      | none => none

/-- Gregorian leap year. -/
def isLeap (y : Nat) : Bool :=
  y % 4 = 0 && (y % 100 != 0 || y % 400 = 0)

/-- Length of a month. -/
def daysInMonth (y m : Nat) : Nat :=
  if m = 2 then (if isLeap y then 29 else 28)
  else if m = 4 ∨ m = 6 ∨ m = 9 ∨ m = 11 then 30
  else 31

/-- The validation the `datetime` constructor adds on top of the regex:
the year must be at least 1 (`datetime.MINYEAR`) and the day must exist
in the month.  Month range, day lower bound, and the time fields are
already constrained by the regex fragments. -/
def validDT (p : DT) : Bool :=
  1 ≤ p.y && p.d ≤ daysInMonth p.y p.m

/-- Parse the input under one format: regex match plus constructor
validation. -/
def parseFmt (toks : List Tok) (cs : List Char) : Option DT :=
  match runToks toks cs {} with
  | some p => if validDT p then some p else none
  | none => none

/-- Compiled form of "%Y-%m-%d". -/
def fmtYMD : List Tok :=
  [Tok.year, Tok.lit '-', Tok.month, Tok.lit '-', Tok.day]

/-- Compiled form of "%Y-%m-%dT%H:%M:%S". -/
def fmtYMDTHMS : List Tok :=
  [Tok.year, Tok.lit '-', Tok.month, Tok.lit '-', Tok.day, Tok.lit 'T',
   Tok.hour, Tok.lit ':', Tok.minute, Tok.lit ':', Tok.second]

/-- Compiled form of "%Y-%m-%d %H:%M:%S" (a format-string space matches
one or more whitespace characters). -/
def fmtYMDSpHMS : List Tok :=
  [Tok.year, Tok.lit '-', Tok.month, Tok.lit '-', Tok.day, Tok.ws,
   Tok.hour, Tok.lit ':', Tok.minute, Tok.lit ':', Tok.second]

/-- Compiled form of "%d %b %Y". -/
def fmtDBY : List Tok :=
  [Tok.day, Tok.ws, Tok.monthName, Tok.ws, Tok.year]

/-- Compiled form of "%Y". -/
def fmtY : List Tok :=
  [Tok.year]

/-- The `date_formats` list of `_filter_date`, in source order. -/
def dateFormats : List (List Tok) :=
  [fmtYMD, fmtYMDTHMS, fmtYMDSpHMS, fmtDBY, fmtY]

/-- Try each format in order, keeping the first that parses. -/
def tryFormats : List (List Tok) → List Char → Option DT
  | [], _ => none
  | f :: fs, cs =>
      match parseFmt f cs with
      | some p => some p
      | none => tryFormats fs cs

/-- Day number of a civil date on a proleptic-Gregorian scale
(era-based days-from-civil computation; the origin is an arbitrary
fixed day, which cancels in every comparison). -/
def daysFromCivil (y m d : Nat) : Nat :=
  let y' := if m ≤ 2 then y - 1 else y
  let era := y' / 400
  let yoe := y' - era * 400
  let mp := (m + 9) % 12
  let doy := (153 * mp + 2) / 5 + (d - 1)
  let doe := yoe * 365 + yoe / 4 - yoe / 100 + doy
  era * 146097 + doe

/-- The instant a parsed `datetime` denotes, in seconds on the fixed
scale; `datetime` comparison coincides with comparison of these counts. -/
def DT.toSecs (p : DT) : Int :=
  (daysFromCivil p.y p.m p.d : Int) * 86400 + (p.h : Int) * 3600 + (p.mi : Int) * 60 + (p.s : Int)

/-- The `item_date` computed by `_filter_date` for one record: `None`
when the record has no date string (`if item.date:` also treats the
empty string as absent), otherwise the first-format parse of the
stripped date string. -/
def itemParsedDate {μ : Type} (it : FetchedItem μ) : Option DT :=
  match it.date with
  | none => none
  | some s => if s = "" then none else tryFormats dateFormats (pyStrip s).data

/-! ## Filter stages (src/filter.py, class ContentFilter)

The Python loops of the form `filtered = []; for item in items: ...;
filtered.append(item)` are embedded as `List.filter` of the loop-body
predicate. -/

/-- Python `item.abstract or item.content`: the abstract unless it is
`None` or empty, else the content. -/
def pyOrStr (a : Option String) (b : String) : String :=
  match a with
  | some s => if s = "" then b else s
  | none => b

/-- The derived search text selected by a rule's `scope` (identical
code in `_filter_regex` and `_filter_keyword`, src/filter.py lines 61-67
and 98-107). -/
def scopeText {μ : Type} (cfg : FilterConfig) (it : FetchedItem μ) : String :=
  if cfg.scope = "title" ∨ cfg.scope = "title_only" then it.title
  else if cfg.scope = "abstract" ∨ cfg.scope = "content_only" then pyOrStr it.abstract it.content
  else it.title ++ " " ++ pyOrStr it.abstract it.content

/-- The regex engine, abstracted: arguments are the pattern, the
`case_sensitive` flag and the text; the result is whether
`re.compile(pattern, flags).search(text)` finds a match. -/
def RegexEngine : Type :=
  String → Bool → String → Bool

/-- `ContentFilter._filter_regex` (src/filter.py, lines 45-77): no-op
without a pattern (`if not config.pattern` also catches the empty
pattern); otherwise keeps a record iff (action is "keep" and the pattern
matches the derived text) or (action is "remove" and it does not). -/
def filterRegex {μ : Type} (rm : RegexEngine) (cfg : FilterConfig)
    (items : List (FetchedItem μ)) : List (FetchedItem μ) :=
  match cfg.pattern with
  | none => items
  | some p =>
      if p = "" then items
      else
        items.filter (fun it =>
          let m := rm p cfg.case_sensitive (scopeText cfg it)
          (cfg.action = "keep" && m) || (cfg.action = "remove" && !m))

/-- `ContentFilter._filter_keyword` (src/filter.py, lines 79-129):
no-op when the keyword list is absent or empty; otherwise keywords (and,
per record, the derived text) are lower-cased unless `case_sensitive`,
a record "matches" when some keyword is a substring of the text, the
"all" match mode additionally requires every keyword to be a substring,
and the result is negated for any action other than "keep". -/
def filterKeyword {μ : Type} (cfg : FilterConfig)
    (items : List (FetchedItem μ)) : List (FetchedItem μ) :=
  if (cfg.keywords.getD []).isEmpty then items
  else
    let kws := if cfg.case_sensitive then cfg.keywords.getD []
      else (cfg.keywords.getD []).map pyLower
    items.filter (fun it =>
      let st0 := scopeText cfg it
      let st := if cfg.case_sensitive then st0 else pyLower st0
      let matched := kws.any (fun kw => pyIn kw st)
      let sk := if cfg.matchMode = "all" then matched && kws.all (fun kw => pyIn kw st)
        else matched
      if cfg.action = "keep" then sk else !sk)

/-- `ContentFilter._filter_length` (src/filter.py, lines 131-146): drops
a record whose `title + " " + content` character count is below `min` or
above `max`; absent bounds impose nothing. -/
def filterLength {μ : Type} (cfg : FilterConfig)
    (items : List (FetchedItem μ)) : List (FetchedItem μ) :=
  items.filter (fun it =>
    let len : Int := ((it.title ++ " " ++ it.content).length : Int)
    (match cfg.min with
     | some m => !(len < m)
     | none => true) &&
    (match cfg.max with
     | some m => !(m < len)
     | none => true))

/-- The composite key `"|".join(key_parts)` built by
`ContentFilter._filter_deduplicate` (src/filter.py, lines 159-170):
the configured fields contribute in order; `content` contributes only
its first 100 characters; `url` contributes only when the record's url
is truthy (present and non-empty); unknown field names contribute
nothing. -/
def dedupeKey {μ : Type} (fields : List String) (it : FetchedItem μ) : String :=
  String.intercalate "|" (fields.filterMap (fun f =>
    if f = "title" then some it.title
    else if f = "content" then some (pySlice it.content 100)
    else if f = "url" then
      match it.url with
      | some u => if u = "" then none else some u
      | none => none
    else none))

/-- The effective dedupe field list: `["title"]` when the configured
list is absent or empty (`if not config.fields`). -/
def effDedupeFields (cfg : FilterConfig) : List String :=
  if (cfg.fields.getD []).isEmpty then ["title"] else cfg.fields.getD []

/-- The `seen`-set loop of `_filter_deduplicate` (src/filter.py, lines
156-176): the first record with each key is kept, later records with an
already-seen key are dropped. -/
def dedupGo {μ : Type} (fields : List String) (seen : List String) :
    List (FetchedItem μ) → List (FetchedItem μ)
  | [] => []
  | it :: rest =>
      let key := dedupeKey fields it
      if key ∈ seen then dedupGo fields seen rest
      else it :: dedupGo fields (key :: seen) rest

/-- `ContentFilter._filter_deduplicate` (src/filter.py, lines 148-176). -/
def filterDeduplicate {μ : Type} (cfg : FilterConfig)
    (items : List (FetchedItem μ)) : List (FetchedItem μ) :=
  dedupGo (effDedupeFields cfg) [] items

/-- The window subtracted from `now` by `_filter_date` (src/filter.py,
lines 181-193): `config.days or 0` and `config.hours or 0` turn an
absent bound into 0, and the hour window is used whenever it is
positive. -/
def dateWindowSecs (cfg : FilterConfig) : Int :=
  if cfg.hours.getD 0 > 0 then cfg.hours.getD 0 * 3600 else cfg.days.getD 0 * 86400

/-- `ContentFilter._filter_date` (src/filter.py, lines 178-232): no-op
when both windows are zero/absent; otherwise keeps a record when its
date is absent or unparsable, and otherwise keeps it iff the parsed
date is at or after `now` minus the window.  `now` is the instant
`datetime.now()` returns, as a second count on the fixed scale. -/
def filterDate {μ : Type} (now : Int) (cfg : FilterConfig)
    (items : List (FetchedItem μ)) : List (FetchedItem μ) :=
  if cfg.days.getD 0 = 0 ∧ cfg.hours.getD 0 = 0 then items
  else
    let cutoff := now - dateWindowSecs cfg
    items.filter (fun it =>
      match itemParsedDate it with
      | none => true
      | some p => cutoff ≤ p.toSecs)

/-- One iteration of the dispatch loop in `ContentFilter.filter`
(src/filter.py, lines 23-43): route on the rule type; unknown types
leave the list unchanged (warning only). -/
def applyFilterStage {μ : Type} (rm : RegexEngine) (now : Int)
    (items : List (FetchedItem μ)) (cfg : FilterConfig) : List (FetchedItem μ) :=
  if cfg.type = "regex" then filterRegex rm cfg items
  else if cfg.type = "keyword" then filterKeyword cfg items
  else if cfg.type = "length" then filterLength cfg items
  else if cfg.type = "deduplicate" then filterDeduplicate cfg items
  else if cfg.type = "date" then filterDate now cfg items
  else items

/-- `ContentFilter.filter` (src/filter.py, lines 23-43): the configured
rules are applied in declaration order, each stage's output feeding the
next. -/
def contentFilter {μ : Type} (rm : RegexEngine) (now : Int)
    (filters : List FilterConfig) (items : List (FetchedItem μ)) : List (FetchedItem μ) :=
  filters.foldl (applyFilterStage rm now) items

/-! ## Adapters and orchestrator (src/crawler.py, class Crawler)

Each `_fetch_*` method is embedded from the point where the decoded
response body is available; a Python exception escaping the method is
`none` (the orchestrator's `try` catches it). -/

/-- The per-element record constructor of `Crawler._fetch_api`
(src/crawler.py, lines 115-134): dict elements resolve
`title` from `title` then `name` then an index placeholder, `content`
from `content` then `description` then `body` then the empty string,
`url` from `url` then `link`, `date` from `date` then `created_at` then
`published`; `dict.get` returns a stored null, so an explicit JSON null
passes through.  Non-dict elements are stringified into title and
content. -/
def mkApiItem (name : String) (idx : Nat) (item : Json) : RawItem :=
  match item with
  | Json.obj kvs =>
      { source := name
        title := jsonGetD kvs "title" (jsonGetD kvs "name" (Json.str ("Item " ++ toString idx)))
        content := jsonGetD kvs "content" (jsonGetD kvs "description"
          (jsonGetD kvs "body" (Json.str "")))
        url := jsonGetD kvs "url" (jsonGetN kvs "link")
        date := jsonGetD kvs "date" (jsonGetD kvs "created_at" (jsonGetN kvs "published"))
        metadata := [("raw", item)] }
  | _ =>
      { source := name
        title := Json.str (pyStr item)
        content := Json.str (pyStr item)
        url := Json.null
        date := Json.null
        metadata := [("raw", item)] }

/-- The JSON-to-records part of `Crawler._fetch_api` (src/crawler.py,
lines 104-136): a list body is used as is; a dict body uses its `data`
entry when that is truthy and otherwise the one-element list holding the
dict itself (`json_data.get("data", []) or [json_data]`); any other body
yields no records (warning).  `none` models the `TypeError` raised by
`enumerate` when the selected value is not iterable. -/
def fetchApiItems (name : String) (jsonData : Json) : Option (List RawItem) :=
  match jsonData with
  | Json.arr l => some (l.enum.map (fun p => mkApiItem name p.1 p.2))
  | Json.obj kvs =>
      let chosen := jsonGetD kvs "data" (Json.arr [])
      let dataList := if pyTruthy chosen then chosen else Json.arr [Json.obj kvs]
      match pyIter dataList with
      | some elems => some (elems.enum.map (fun p => mkApiItem name p.1 p.2))
      | none => none
  | _ => some []

/-- The author-name comprehension of `Crawler._fetch_semantic_scholar`
(src/crawler.py, line 530): `[a.get("name") for a in authors if
a.get("name")]`; a non-dict author raises (`none`). -/
def semanticAuthorNames : List Json → Option (List Json)
  | [] => some []
  | Json.obj kvs :: rest =>
      (semanticAuthorNames rest).map (fun r =>
        let n := jsonGetN kvs "name"
        if pyTruthy n then n :: r else r)
  | _ => none

/-- The per-paper record constructor of `Crawler._fetch_semantic_scholar`
(src/crawler.py, lines 524-542); a non-dict paper raises (`none`). -/
def mkSemanticItem (name : String) (paper : Json) : Option RawItem :=
  match paper with
  | Json.obj kvs =>
      let title := jsonGetD kvs "title" (Json.str "Untitled")
      let rawAbstract := jsonGetN kvs "abstract"
      let abstract := if pyTruthy rawAbstract then rawAbstract else Json.str ""
      let year := jsonGetN kvs "year"
      let venue := jsonGetD kvs "venue" (Json.str "")
      match pyIter (jsonGetD kvs "authors" (Json.arr [])) with
      | some authorElems =>
          match semanticAuthorNames authorElems with
          | some names =>
              some { source := name
                     title := title
                     content := abstract
                     url := jsonGetN kvs "url"
                     date := if pyTruthy year then Json.str (pyStr year) else Json.null
                     authors := Json.arr names
                     abstract := abstract
                     categories := if pyTruthy venue then Json.arr [venue] else Json.arr []
                     metadata := [("paperId", jsonGetN kvs "paperId"), ("venue", venue),
                       ("source", Json.str "semantic_scholar")] }
          | none => none
      | none => none
  | _ => none

/-- Map the paper constructor over the hit list, propagating a raised
exception. -/
def mkSemanticItems (name : String) : List Json → Option (List RawItem)
  | [] => some []
  | p :: rest =>
      match mkSemanticItem name p with
      | some it =>
          match mkSemanticItems name rest with
          | some its => some (it :: its)
          | none => none
      | none => none

/-- `Crawler._fetch_semantic_scholar` (src/crawler.py, lines 504-544)
from the decoded response body: an empty query short-circuits to no
records (warning); otherwise `data.get("data", [])` is iterated and each
paper mapped to a record.  `none` models a raised exception (non-dict
body, non-iterable data entry, or non-dict paper). -/
def fetchSemanticScholar (name query : String) (respJson : Json) : Option (List RawItem) :=
  if query = "" then some []
  else
    match respJson with
    | Json.obj kvs =>
        match pyIter (jsonGetD kvs "data" (Json.arr [])) with
        | some papers => mkSemanticItems name papers
        | none => none
    | _ => none

/-- The source kinds `Crawler.fetch` dispatches on (src/crawler.py,
lines 51-64). -/
def knownSourceTypes : List String :=
  ["api", "web", "arxiv", "arxiv_rss", "acl_anthology", "semantic_scholar", "dblp"]

/-- What one source adds to the aggregate in `Crawler.fetch`: nothing
for an unknown kind (warning, `continue`) or a raised adapter exception
(`except` block, `continue`); the adapter's records otherwise.  `run`
abstracts the seven per-kind adapter invocations, each of which performs
network and parsing work; `Except.error` stands for a raised exception. -/
def sourceContribution (run : SourceConfig → Except String (List RawItem))
    (s : SourceConfig) : List RawItem :=
  if knownSourceTypes.contains s.type then
    match run s with
    | Except.ok data => data
    | Except.error _ => []
  else []

/-- `Crawler.fetch` (src/crawler.py, lines 45-76): iterate the task's
sources in declaration order, dispatch on the declared kind, skip
unknown kinds with a warning, catch any adapter exception, and extend
the aggregate with each successful source's records. -/
def crawlerFetch (run : SourceConfig → Except String (List RawItem))
    (sources : List SourceConfig) : List RawItem :=
  sources.foldl (fun acc s =>
    if knownSourceTypes.contains s.type then
      match run s with
      | Except.ok data => acc ++ data
      | Except.error _ => acc
    else acc) []

/-- One entry of the DBLP feed as step 2 of `Crawler._fetch_dblp_rss`
sees it: its title element's text and its link element's text, `none`
when the element is missing (`if not title_elem or not link_elem:
continue`). -/
structure DblpFeedEntry where
  title : Option String
  link : Option String
deriving DecidableEq

/-- Assignment `d[k] = v` on an insertion-ordered dict modelled as an
association list: an existing key keeps its position and gets the new
value; a new key is appended. -/
def dictSet (d : List (String × String)) (k v : String) : List (String × String) :=
  if (d.lookup k).isSome then d.map (fun kv => if kv.1 = k then (k, v) else kv)
  else d ++ [(k, v)]

/-- Which configured conference token an entry is selected for: the
first token, in configuration order, whose lower-cased text is a
substring of the entry's lower-cased title (src/crawler.py, lines
680-686; entries missing a title or link are skipped at lines 675-676).
The entry's link is not examined. -/
def dblpEntrySelect (conferences : List String) (e : DblpFeedEntry) : Option String :=
  match e.title, e.link with
  | some t, some _ => conferences.find? (fun conf => pyIn (pyLower conf) (pyLower t))
  | _, _ => none

/-- One feed entry's effect on the `conf_urls` dict: a selected entry
stores its link under the upper-cased matched token
(`conf_urls[conf.upper()] = link`), any other entry leaves the dict
unchanged. -/
def dblpStep (conferences : List String) (d : List (String × String))
    (e : DblpFeedEntry) : List (String × String) :=
  match dblpEntrySelect conferences e with
  | some conf =>
      match e.link with
      | some l => dictSet d (pyUpper conf) l
      | none => d
  | none => d

/-- Step 2 of `Crawler._fetch_dblp_rss` (src/crawler.py, lines 670-686):
the `conf_urls` dict after scanning the feed entries; a selected entry
stores its link under the upper-cased matched token, overwriting an
earlier selection for the same token. -/
def dblpRssSelect (conferences : List String) (entries : List DblpFeedEntry) :
    List (String × String) :=
  entries.foldl (dblpStep conferences) []

/-! ## Stage lemmas -/

theorem filterRegex_sublist {μ : Type} (rm : RegexEngine) (cfg : FilterConfig)
    (items : List (FetchedItem μ)) : (filterRegex rm cfg items).Sublist items := by
  unfold filterRegex
  match cfg.pattern with
  | none => exact List.Sublist.refl items
  | some p =>
      by_cases hp : p = ""
      · simp [hp]
      · simp [hp]

theorem filterKeyword_sublist {μ : Type} (cfg : FilterConfig)
    (items : List (FetchedItem μ)) : (filterKeyword cfg items).Sublist items := by
  unfold filterKeyword
  by_cases h : (cfg.keywords.getD []).isEmpty
  · simp [h]
  · simp [h]

theorem filterLength_sublist {μ : Type} (cfg : FilterConfig)
    (items : List (FetchedItem μ)) : (filterLength cfg items).Sublist items :=
  List.filter_sublist items

theorem dedupGo_sublist {μ : Type} (fields : List String) (seen : List String)
    (items : List (FetchedItem μ)) : (dedupGo fields seen items).Sublist items := by
  induction items generalizing seen with
  | nil => simp [dedupGo]
  | cons it rest ih =>
      unfold dedupGo
      by_cases h : dedupeKey fields it ∈ seen
      · simp only [h, if_pos]
        exact (ih seen).cons it
      · simp only [h, if_neg, not_false_iff]
        exact (ih (dedupeKey fields it :: seen)).cons₂ it

theorem filterDeduplicate_sublist {μ : Type} (cfg : FilterConfig)
    (items : List (FetchedItem μ)) : (filterDeduplicate cfg items).Sublist items :=
  dedupGo_sublist _ [] items

theorem filterDate_sublist {μ : Type} (now : Int) (cfg : FilterConfig)
    (items : List (FetchedItem μ)) : (filterDate now cfg items).Sublist items := by
  unfold filterDate
  by_cases h : cfg.days.getD 0 = 0 ∧ cfg.hours.getD 0 = 0
  · simp [h]
  · simp [h]

theorem applyFilterStage_sublist {μ : Type} (rm : RegexEngine) (now : Int)
    (items : List (FetchedItem μ)) (cfg : FilterConfig) :
    (applyFilterStage rm now items cfg).Sublist items := by
  unfold applyFilterStage
  by_cases h1 : cfg.type = "regex"
  · simp [h1, filterRegex_sublist]
  by_cases h2 : cfg.type = "keyword"
  · simp [h1, h2, filterKeyword_sublist]
  by_cases h3 : cfg.type = "length"
  · simp [h1, h2, h3, filterLength_sublist]
  by_cases h4 : cfg.type = "deduplicate"
  · simp [h1, h2, h3, h4, filterDeduplicate_sublist]
  by_cases h5 : cfg.type = "date"
  · simp [h1, h2, h3, h4, h5, filterDate_sublist]
  · simp [h1, h2, h3, h4, h5]

/-- C1.  For every input record list and every configured rule list, the
filter pipeline (`ContentFilter.filter`) returns a subsequence of its
input: every output record is one of the input records with all fields
unchanged, no record is duplicated, and the relative order of retained
records is that of the input (no stage mutates or reorders records). -/
theorem contentFilter_subsequence {μ : Type} (rm : RegexEngine) (now : Int)
    (filters : List FilterConfig) (items : List (FetchedItem μ)) :
    (contentFilter rm now filters items).Sublist items := by
  unfold contentFilter
  induction filters generalizing items with
  | nil => exact List.Sublist.refl items
  | cons cfg rest ih =>
      simp only [List.foldl_cons]
      exact (ih (applyFilterStage rm now items cfg)).trans (applyFilterStage_sublist rm now items cfg)

/-! ## Deduplication lemmas -/

theorem dedupGo_mem_key_notin_seen {μ : Type} (fields : List String) (seen : List String)
    (items : List (FetchedItem μ)) (x : FetchedItem μ) (hx : x ∈ dedupGo fields seen items) :
    dedupeKey fields x ∉ seen := by
  induction items generalizing seen with
  | nil => simp [dedupGo] at hx
  | cons it rest ih =>
      unfold dedupGo at hx
      by_cases h : dedupeKey fields it ∈ seen
      · simp only [h, if_pos] at hx
        exact ih seen hx
      · simp only [h, if_neg, not_false_iff, List.mem_cons] at hx
        rcases hx with rfl | hx
        · exact h
        · have := ih (dedupeKey fields it :: seen) hx
          intro hmem
          exact this (List.mem_cons_of_mem _ hmem)

theorem dedupGo_pairwise_keys {μ : Type} (fields : List String) (seen : List String)
    (items : List (FetchedItem μ)) :
    (dedupGo fields seen items).Pairwise
      (fun a b => dedupeKey fields a ≠ dedupeKey fields b) := by
  induction items generalizing seen with
  | nil => simp [dedupGo]
  | cons it rest ih =>
      unfold dedupGo
      by_cases h : dedupeKey fields it ∈ seen
      · simp only [h, if_pos]
        exact ih seen
      · simp only [h, if_neg, not_false_iff]
        refine List.Pairwise.cons ?_ (ih (dedupeKey fields it :: seen))
        intro b hb
        have := dedupGo_mem_key_notin_seen fields _ rest b hb
        intro heq
        exact this (heq ▸ List.mem_cons_self _ _)

theorem dedupGo_find_first {μ : Type} (fields : List String) (seen : List String)
    (items : List (FetchedItem μ)) (x : FetchedItem μ) (hx : x ∈ dedupGo fields seen items) :
    items.find? (fun y => dedupeKey fields y == dedupeKey fields x) = some x := by
  induction items generalizing seen with
  | nil => simp [dedupGo] at hx
  | cons it rest ih =>
      unfold dedupGo at hx
      by_cases h : dedupeKey fields it ∈ seen
      · simp only [h, if_pos] at hx
        have hne : dedupeKey fields it ≠ dedupeKey fields x := by
          intro heq
          exact dedupGo_mem_key_notin_seen fields seen rest x hx (heq ▸ h)
        rw [List.find?_cons_of_neg _ (by simpa using hne)]
        exact ih seen hx
      · simp only [h, if_neg, not_false_iff, List.mem_cons] at hx
        rcases hx with rfl | hx
        · exact List.find?_cons_of_pos _ (by simp)
        · have hnotin := dedupGo_mem_key_notin_seen fields _ rest x hx
          have hne : dedupeKey fields it ≠ dedupeKey fields x := by
            intro heq
            exact hnotin (heq ▸ List.mem_cons_self _ _)
          rw [List.find?_cons_of_neg _ (by simpa using hne)]
          exact ih (dedupeKey fields it :: seen) hx

theorem dedupGo_covers {μ : Type} (fields : List String) (seen : List String)
    (items : List (FetchedItem μ)) (y : FetchedItem μ) (hy : y ∈ items) :
    dedupeKey fields y ∈ seen ∨
      ∃ x ∈ dedupGo fields seen items, dedupeKey fields x = dedupeKey fields y := by
  induction items generalizing seen with
  | nil => simp at hy
  | cons it rest ih =>
      unfold dedupGo
      rcases List.mem_cons.mp hy with rfl | hy
      · by_cases h : dedupeKey fields y ∈ seen
        · exact Or.inl h
        · refine Or.inr ⟨y, ?_, rfl⟩
          simp only [h, if_neg, not_false_iff]
          exact List.mem_cons_self _ _
      · by_cases h : dedupeKey fields it ∈ seen
        · simp only [h, if_pos]
          exact ih seen hy
        · simp only [h, if_neg, not_false_iff]
          rcases ih (dedupeKey fields it :: seen) hy with hseen | ⟨x, hx, hkey⟩
          · rcases List.mem_cons.mp hseen with heq | hseen'
            · exact Or.inr ⟨it, List.mem_cons_self _ _, heq.symm⟩
            · exact Or.inl hseen'
          · exact Or.inr ⟨x, List.mem_cons_of_mem _ hx, hkey⟩

theorem dedupeKey_content_slice {μ : Type} (fields : List String) (it : FetchedItem μ) :
    dedupeKey fields { it with content := pySlice it.content 100 } = dedupeKey fields it := by
  unfold dedupeKey
  congr 1
  apply List.filterMap_congr
  intro f _
  by_cases h1 : f = "title"
  · simp [h1]
  by_cases h2 : f = "content"
  · simp [h1, h2, pySlice, List.take_take]
  · simp [h1, h2]

/-- C3.  For every record list, the deduplicate stage outputs a list
whose size is at most the input size, in which no two records share an
identical composite key, keeping for each key the first occurrence in
input order; the key is built from the configured dedupe fields in order
(definition `dedupeKey`), with only the first 100 characters of content
participating when "content" is a dedupe field (so a record's key is
unchanged by truncating its content to 100 characters), and the default
field set when none is configured is just the title. -/
theorem filterDeduplicate_spec {μ : Type} (cfg : FilterConfig)
    (items : List (FetchedItem μ)) :
    (filterDeduplicate cfg items).length ≤ items.length
    ∧ (filterDeduplicate cfg items).Pairwise
        (fun a b => dedupeKey (effDedupeFields cfg) a ≠ dedupeKey (effDedupeFields cfg) b)
    ∧ (∀ x ∈ filterDeduplicate cfg items,
        items.find? (fun y =>
          dedupeKey (effDedupeFields cfg) y == dedupeKey (effDedupeFields cfg) x) = some x)
    ∧ (∀ y ∈ items, ∃ x ∈ filterDeduplicate cfg items,
        dedupeKey (effDedupeFields cfg) x = dedupeKey (effDedupeFields cfg) y)
    ∧ (cfg.fields = none → effDedupeFields cfg = ["title"])
    ∧ (∀ it : FetchedItem μ,
        dedupeKey (effDedupeFields cfg) { it with content := pySlice it.content 100 }
          = dedupeKey (effDedupeFields cfg) it) := by
  refine ⟨(filterDeduplicate_sublist cfg items).length_le, dedupGo_pairwise_keys _ [] items,
    ?_, ?_, ?_, fun it => dedupeKey_content_slice _ it⟩
  · intro x hx
    exact dedupGo_find_first _ [] items x hx
  · intro y hy
    rcases dedupGo_covers (effDedupeFields cfg) [] items y hy with hseen | hex
    · simp at hseen
    · exact hex
  · intro hnone
    simp [effDedupeFields, hnone]

/-- Deduplicate rule with no configured field list. -/
def dedupCfg : FilterConfig :=
  { type := "deduplicate" }

/-- First of two records sharing a title but not a url. -/
def paperA : FetchedItem Unit :=
  { source := "s1", title := "Paper X", content := "", url := some "u1", metadata := () }

/-- Second of two records sharing a title but not a url. -/
def paperB : FetchedItem Unit :=
  { source := "s2", title := "Paper X", content := "", url := some "u2", metadata := () }

theorem filterDeduplicate_spec_witness :
    paperA ∈ filterDeduplicate dedupCfg [paperA, paperB]
    ∧ [paperA, paperB].find? (fun y =>
        dedupeKey (effDedupeFields dedupCfg) y == dedupeKey (effDedupeFields dedupCfg) paperA)
        = some paperA
    ∧ effDedupeFields dedupCfg = ["title"] := by
  have h := filterDeduplicate_spec dedupCfg [paperA, paperB]
  exact ⟨by decide, h.2.2.1 paperA (by decide), h.2.2.2.2.1 rfl⟩

/-- All records whose keys are already seen are dropped. -/
theorem dedupGo_all_seen {μ : Type} (fields : List String) (seen : List String)
    (items : List (FetchedItem μ)) (h : ∀ r ∈ items, dedupeKey fields r ∈ seen) :
    dedupGo fields seen items = [] := by
  induction items with
  | nil => rfl
  | cons it rest ih =>
      unfold dedupGo
      have hit := h it (List.mem_cons_self _ _)
      simp only [hit, if_pos]
      exact ih (fun r hr => h r (List.mem_cons_of_mem _ hr))

/-- A record without a truthy url contributes nothing to the key for the
"url" field. -/
theorem dedupeKey_url_none {μ : Type} (it : FetchedItem μ) (hu : it.url = none) :
    dedupeKey ["url"] it = "" := by
  simp [dedupeKey, hu, String.intercalate]

/-- Deduplicate rule keyed on the url field alone. -/
def urlOnlyCfg : FilterConfig :=
  { type := "deduplicate", fields := some ["url"] }

/-- C10.  In the deduplicate stage, when "url" is among the configured
dedupe fields but a record's url is absent (`None`), the url component
is omitted from that record's composite key entirely (the key is the one
built from the field list with "url" removed); consequently, with
`fields = ["url"]` alone, every url-less record shares the empty key and
only the first record of an all-url-less list is kept. -/
theorem dedupe_url_absent_spec {μ : Type} (fields : List String) (it : FetchedItem μ)
    (items : List (FetchedItem μ)) (hu : it.url = none) (hall : ∀ r ∈ items, r.url = none) :
    dedupeKey fields it = dedupeKey (fields.filter (fun f => f ≠ "url")) it
    ∧ filterDeduplicate urlOnlyCfg items = items.take 1 := by
  constructor
  · unfold dedupeKey
    congr 1
    induction fields with
    | nil => rfl
    | cons f fs ih =>
        by_cases hf : f = "url"
        · subst hf
          simpa [hu] using ih
        · simp only [List.filterMap_cons, List.filter_cons, hf]
          by_cases h1 : f = "title"
          · simpa [h1] using congrArg (it.title :: ·) ih
          by_cases h2 : f = "content"
          · simpa [h1, h2] using congrArg (pySlice it.content 100 :: ·) ih
          · simpa [h1, h2, hf] using ih
  · have heff : effDedupeFields urlOnlyCfg = ["url"] := rfl
    unfold filterDeduplicate
    rw [heff]
    match items, hall with
    | [], _ => rfl
    | x :: xs, hall =>
        unfold dedupGo
        have hx : dedupeKey ["url"] x = "" :=
          dedupeKey_url_none x (hall x (List.mem_cons_self _ _))
        have hnot : dedupeKey ["url"] x ∉ ([] : List String) := by simp
        simp only [hnot, if_neg, not_false_iff, List.take_succ_cons, List.take_zero]
        rw [dedupGo_all_seen]
        intro r hr
        rw [dedupeKey_url_none r (hall r (List.mem_cons_of_mem _ hr)), hx]
        exact List.mem_cons_self _ _

/-- A url-less record. -/
def noUrlA : FetchedItem Unit :=
  { source := "s1", title := "T1", content := "c1", metadata := () }

/-- Another url-less record with different remaining fields. -/
def noUrlB : FetchedItem Unit :=
  { source := "s2", title := "T2", content := "c2", metadata := () }

theorem dedupe_url_absent_spec_witness :
    noUrlA.url = none
    ∧ dedupeKey ["title", "url"] noUrlA
        = dedupeKey (["title", "url"].filter (fun f => f ≠ "url")) noUrlA
    ∧ filterDeduplicate urlOnlyCfg [noUrlA, noUrlB] = [noUrlA, noUrlB].take 1 := by
  have h := dedupe_url_absent_spec ["title", "url"] noUrlA [noUrlA, noUrlB] rfl
    (by intro r hr; rcases List.mem_cons.mp hr with rfl | hr; · rfl
        · rcases List.mem_cons.mp hr with rfl | hr; · rfl
          · simp at hr)
  exact ⟨rfl, h.1, h.2⟩

/-! ## Keyword stage: claims C5 and C7 -/

/-- Claim-side retention predicate for the keyword stage, written from
the spec's words (to be compared with the source-side `filterKeyword`):
keywords and the scope-derived text are lower-cased unless
`caseSensitive`; "matched" means at least one keyword is a substring;
`matchMode = all` additionally requires every keyword to be a substring;
`action = remove` negates the result. -/
def claimKeywordKeep {μ : Type} (cfg : FilterConfig) (it : FetchedItem μ) : Bool :=
  let kws := (cfg.keywords.getD []).map (fun k => if cfg.case_sensitive then k else pyLower k)
  let text := if cfg.case_sensitive then scopeText cfg it else pyLower (scopeText cfg it)
  let matched := kws.any (fun kw => pyIn kw text)
  let retain := if cfg.matchMode = "all" then matched && kws.all (fun kw => pyIn kw text)
    else matched
  if cfg.action = "remove" then !retain else retain

/-- The scenario rule of C5: keyword rule with keywords `["vla"]`,
title scope, keep action, case-insensitive. -/
def vlaRule : FilterConfig :=
  { type := "keyword", keywords := some ["vla"], scope := "title", action := "keep",
    case_sensitive := false }

/-- Scenario record A of C5. -/
def vlaRecA : FetchedItem Unit :=
  { source := "s", title := "A VLA model", content := "", abstract := some "robot learning",
    metadata := () }

/-- Scenario record B of C5. -/
def vlaRecB : FetchedItem Unit :=
  { source := "s", title := "B", content := "", abstract := some "unrelated NLP work",
    metadata := () }

/-- C5.  The keyword stage retains a record iff its retention predicate
holds: the derived search text is selected by scope, keywords and text
are lower-cased unless `caseSensitive`, "matched" means at least one
keyword is a substring, `matchMode = all` additionally requires every
keyword, and `action = remove` negates the result; with an empty keyword
set the stage returns its input unchanged.  In particular the C5
scenario filters `[A VLA model, B]` by keyword "vla" on the title down
to exactly the first record. -/
theorem filterKeyword_spec {μ : Type} (cfg : FilterConfig) (items : List (FetchedItem μ))
    (hact : cfg.action = "keep" ∨ cfg.action = "remove") :
    (cfg.keywords.getD [] = [] → filterKeyword cfg items = items)
    ∧ (cfg.keywords.getD [] ≠ [] →
        filterKeyword cfg items = items.filter (claimKeywordKeep cfg))
    ∧ filterKeyword vlaRule [vlaRecA, vlaRecB] = [vlaRecA] := by
  refine ⟨?_, ?_, by decide⟩
  · intro h
    simp [filterKeyword, h]
  · intro h
    have hne : (cfg.keywords.getD []).isEmpty = false := by
      cases hk : cfg.keywords.getD [] with
      | nil => exact absurd hk h
      | cons a as => rfl
    unfold filterKeyword
    simp only [hne, Bool.false_eq_true, if_false]
    apply List.filter_congr
    intro it _
    rcases hact with ha | ha <;> rw [claimKeywordKeep, ha] <;>
      cases hcs : cfg.case_sensitive <;> simp [hcs, List.map_id']

theorem filterKeyword_spec_witness :
    (vlaRule.action = "keep" ∨ vlaRule.action = "remove")
    ∧ ((vlaRule.keywords.getD [] = [] →
          filterKeyword vlaRule [vlaRecA, vlaRecB] = [vlaRecA, vlaRecB])
       ∧ (vlaRule.keywords.getD [] ≠ [] →
          filterKeyword vlaRule [vlaRecA, vlaRecB]
            = [vlaRecA, vlaRecB].filter (claimKeywordKeep vlaRule))
       ∧ filterKeyword vlaRule [vlaRecA, vlaRecB] = [vlaRecA]) :=
  ⟨Or.inl rfl, filterKeyword_spec vlaRule [vlaRecA, vlaRecB] (Or.inl rfl)⟩

/-- C7.  The keyword stage with `matchMode = any` and `action = keep` is
idempotent: applying the stage to its own output yields that output. -/
theorem filterKeyword_idempotent {μ : Type} (cfg : FilterConfig)
    (items : List (FetchedItem μ)) (_hm : cfg.matchMode = "any") (_ha : cfg.action = "keep") :
    filterKeyword cfg (filterKeyword cfg items) = filterKeyword cfg items := by
  by_cases h : (cfg.keywords.getD []).isEmpty
  · simp [filterKeyword, h]
  · simp only [filterKeyword, h, Bool.false_eq_true, if_false]
    rw [List.filter_filter]
    apply List.filter_congr
    intro a _
    exact Bool.and_self _

theorem filterKeyword_idempotent_witness :
    vlaRule.matchMode = "any" ∧ vlaRule.action = "keep"
    ∧ filterKeyword vlaRule (filterKeyword vlaRule [vlaRecA, vlaRecB])
        = filterKeyword vlaRule [vlaRecA, vlaRecB] :=
  ⟨rfl, rfl, filterKeyword_idempotent vlaRule [vlaRecA, vlaRecB] rfl rfl⟩

/-! ## Recency stage: claim C2 -/

/-- C2.  For every record processed by the recency (date) stage with an
hour- or day-window configured: a record with no date string, or whose
date string parses under none of the accepted formats (plain date,
date-with-seconds in the "T" and space separators, textual
day-month-year, bare year — the format list behind `itemParsedDate`),
is kept; a record whose date parses is kept iff the parsed date is at
or after the cutoff `now` minus the window, where the hour window
defines the cutoff whenever it is set (positive); with neither window
configured the stage returns its input unchanged. -/
theorem filterDate_spec {μ : Type} (now : Int) (cfg : FilterConfig)
    (items : List (FetchedItem μ)) (it : FetchedItem μ) :
    (cfg.days.getD 0 = 0 ∧ cfg.hours.getD 0 = 0 → filterDate now cfg items = items)
    ∧ (¬(cfg.days.getD 0 = 0 ∧ cfg.hours.getD 0 = 0) →
        (it ∈ filterDate now cfg items ↔
          it ∈ items ∧ (itemParsedDate it = none ∨
            ∃ p, itemParsedDate it = some p ∧ now - dateWindowSecs cfg ≤ p.toSecs))) := by
  constructor
  · intro h
    simp [filterDate, h]
  · intro h
    simp only [filterDate, if_neg h]
    rw [List.mem_filter]
    cases hp : itemParsedDate it <;> simp [hp]

/-- Date rule with a 24-hour window. -/
def dateCfg24 : FilterConfig :=
  { type := "date", hours := some 24 }

/-- A record dated inside the witness window. -/
def dateItem : FetchedItem Unit :=
  { source := "s", title := "P", content := "", date := some "2024-06-01", metadata := () }

/-- The witness "now": midnight starting 2024-06-02. -/
def wNow : Int :=
  DT.toSecs { y := 2024, m := 6, d := 2 }

theorem filterDate_spec_witness :
    ¬(dateCfg24.days.getD 0 = 0 ∧ dateCfg24.hours.getD 0 = 0)
    ∧ dateItem ∈ filterDate wNow dateCfg24 [dateItem] := by
  refine ⟨by decide, ?_⟩
  exact ((filterDate_spec wNow dateCfg24 [dateItem] dateItem).2 (by decide)).mpr
    ⟨by decide, Or.inr ⟨{ y := 2024, m := 6, d := 1 }, by decide, by decide⟩⟩

/-! ## Orchestrator: claim C6 -/

theorem crawlerFetch_go (run : SourceConfig → Except String (List RawItem))
    (sources : List SourceConfig) (acc : List RawItem) :
    sources.foldl (fun acc s =>
      if knownSourceTypes.contains s.type then
        match run s with
        | Except.ok data => acc ++ data
        | Except.error _ => acc
      else acc) acc = acc ++ (sources.map (sourceContribution run)).flatten := by
  induction sources generalizing acc with
  | nil => simp
  | cons s rest ih =>
      simp only [List.foldl_cons, List.map_cons, List.flatten_cons, ih]
      unfold sourceContribution
      cases hk : knownSourceTypes.contains s.type
      · simp [hk]
      · cases hrun : run s <;> simp [hk, hrun, List.append_assoc]

/-- C6.  For every task, the orchestrator's fetch returns a (possibly
empty) record list and never propagates an adapter exception to the
caller: the result is the concatenation, in source-declaration order, of
per-source contributions, where a source whose adapter raises
contributes nothing (so one source's failure cannot change any other
source's contribution) and a source with an unrecognized kind
contributes nothing and causes no error. -/
theorem crawlerFetch_spec (run : SourceConfig → Except String (List RawItem))
    (sources : List SourceConfig) (s : SourceConfig) (e : String) :
    crawlerFetch run sources = (sources.map (sourceContribution run)).flatten
    ∧ (knownSourceTypes.contains s.type = false → sourceContribution run s = [])
    ∧ (run s = Except.error e → sourceContribution run s = []) := by
  refine ⟨?_, ?_, ?_⟩
  · unfold crawlerFetch
    rw [crawlerFetch_go]
    simp
  · intro h
    unfold sourceContribution
    rw [h]
    simp
  · intro h
    unfold sourceContribution
    rw [h]
    simp

/-- Demonstration adapter oracle: the source named "bad" raises, every
other source yields one record. -/
def runDemo : SourceConfig → Except String (List RawItem) :=
  fun s =>
    if s.name = "bad" then Except.error "boom"
    else Except.ok [{ source := s.name, title := Json.str "t", content := Json.str "c" }]

/-- A healthy API source. -/
def srcApi : SourceConfig :=
  { type := "api", name := "ok", url := "u" }

/-- An API source whose adapter raises. -/
def srcBad : SourceConfig :=
  { type := "api", name := "bad", url := "u" }

/-- A source of unrecognized kind. -/
def srcUnknown : SourceConfig :=
  { type := "rss", name := "x", url := "u" }

theorem crawlerFetch_spec_witness :
    knownSourceTypes.contains srcUnknown.type = false
    ∧ runDemo srcBad = Except.error "boom"
    ∧ crawlerFetch runDemo [srcApi, srcBad, srcUnknown]
        = ([srcApi, srcBad, srcUnknown].map (sourceContribution runDemo)).flatten
    ∧ sourceContribution runDemo srcUnknown = []
    ∧ sourceContribution runDemo srcBad = [] :=
  ⟨rfl, rfl, (crawlerFetch_spec runDemo [srcApi, srcBad, srcUnknown] srcUnknown "boom").1,
    (crawlerFetch_spec runDemo [srcApi, srcBad, srcUnknown] srcUnknown "boom").2.1 rfl,
    (crawlerFetch_spec runDemo [srcApi, srcBad, srcUnknown] srcBad "boom").2.2 rfl⟩

/-! ## DBLP venue-feed selection: claim C8 -/

theorem lookup_append (l1 l2 : List (String × String)) (a : String) :
    (l1 ++ l2).lookup a =
      match l1.lookup a with
      | some v => some v
      | none => l2.lookup a := by
  induction l1 with
  | nil => simp [List.lookup]
  | cons kv rest ih =>
      cases hkv : (a == kv.1) <;> simp [List.lookup, hkv, ih]

theorem dictSet_map_lookup_ne (d : List (String × String)) (k v k' : String) (h : k' ≠ k) :
    (d.map (fun kv => if kv.1 = k then (k, v) else kv)).lookup k' = d.lookup k' := by
  induction d with
  | nil => rfl
  | cons kv rest ih =>
      simp only [List.map_cons]
      split_ifs with hc
      · have h1 : (k' == k) = false := by simpa using h
        have h2 : (k' == kv.1) = false := by rw [hc]; exact h1
        simp [List.lookup, h1, h2, ih]
      · cases hc2 : (k' == kv.1) <;> simp [List.lookup, hc2, ih]

theorem dictSet_map_lookup_eq (d : List (String × String)) (k v : String)
    (h : (d.lookup k).isSome = true) :
    (d.map (fun kv => if kv.1 = k then (k, v) else kv)).lookup k = some v := by
  induction d with
  | nil => simp [List.lookup] at h
  | cons kv rest ih =>
      simp only [List.map_cons]
      split_ifs with hc
      · simp [List.lookup]
      · have hne : (k == kv.1) = false := by
          simp only [beq_eq_false_iff_ne, ne_eq]
          intro heq
          exact hc heq.symm
        simp only [List.lookup, hne] at h ⊢
        exact ih h

theorem dictSet_lookup (d : List (String × String)) (k v k' : String) :
    (dictSet d k v).lookup k' = if k' = k then some v else d.lookup k' := by
  unfold dictSet
  by_cases hp : (d.lookup k).isSome = true
  · simp only [hp, if_true]
    by_cases hk : k' = k
    · subst hk
      rw [dictSet_map_lookup_eq d k' v hp]
      simp
    · rw [dictSet_map_lookup_ne d k v k' hk]
      simp [hk]
  · simp only [hp, Bool.false_eq_true, if_false]
    rw [lookup_append]
    by_cases hk : k' = k
    · subst hk
      have : d.lookup k' = none := by
        cases hl : d.lookup k' with
        | none => rfl
        | some w => rw [hl] at hp; simp at hp
      simp [this, List.lookup]
    · have hne : (k' == k) = false := by simpa using hk
      cases hl : d.lookup k' <;> simp [hl, List.lookup, hne, hk]

theorem dictSet_mem (d : List (String × String)) (k v : String) (p : String × String)
    (hp : p ∈ dictSet d k v) : p = (k, v) ∨ p ∈ d := by
  unfold dictSet at hp
  by_cases h : (d.lookup k).isSome = true
  · simp only [h, if_true] at hp
    rcases List.mem_map.mp hp with ⟨q, hq, hfq⟩
    by_cases hq1 : q.1 = k
    · simp only [hq1, if_true] at hfq
      exact Or.inl hfq.symm
    · simp only [hq1, if_false] at hfq
      exact Or.inr (hfq ▸ hq)
  · simp only [h, Bool.false_eq_true, if_false, List.mem_append, List.mem_singleton] at hp
    exact hp.symm.imp id id

theorem dblpEntrySelect_link (conferences : List String) (e : DblpFeedEntry) (conf : String)
    (h : dblpEntrySelect conferences e = some conf) : ∃ l, e.link = some l := by
  unfold dblpEntrySelect at h
  cases ht : e.title <;> cases hl : e.link <;> simp_all

theorem dblpStep_lookup_isSome (conferences : List String) (e : DblpFeedEntry)
    (d : List (String × String)) (k : String) :
    (((dblpStep conferences d e).lookup k).isSome = true) ↔
      (((d.lookup k).isSome = true) ∨
        ∃ conf, dblpEntrySelect conferences e = some conf ∧ pyUpper conf = k) := by
  unfold dblpStep
  cases hsel : dblpEntrySelect conferences e with
  | none => simp
  | some conf =>
      obtain ⟨l, hl⟩ := dblpEntrySelect_link conferences e conf hsel
      rw [hl, dictSet_lookup]
      by_cases hk : k = pyUpper conf
      · simp [hk]
      · rw [if_neg hk]
        constructor
        · exact fun h' => Or.inl h'
        · rintro (h' | ⟨c, hc, hup⟩)
          · exact h'
          · rw [Option.some.injEq] at hc
            subst hc
            exact absurd hup.symm hk

theorem dblpFold_lookup_isSome (conferences : List String) (entries : List DblpFeedEntry) :
    ∀ (d : List (String × String)) (k : String),
    (((entries.foldl (dblpStep conferences) d).lookup k).isSome = true) ↔
      (((d.lookup k).isSome = true) ∨
        ∃ e ∈ entries, ∃ conf, dblpEntrySelect conferences e = some conf ∧ pyUpper conf = k) := by
  induction entries with
  | nil =>
      intro d k
      simp
  | cons e es ih =>
      intro d k
      simp only [List.foldl_cons]
      rw [ih, dblpStep_lookup_isSome]
      constructor
      · rintro ((hd | hse) | ⟨e', he', rest⟩)
        · exact Or.inl hd
        · exact Or.inr ⟨e, List.mem_cons_self _ _, hse⟩
        · exact Or.inr ⟨e', List.mem_cons_of_mem _ he', rest⟩
      · rintro (hd | ⟨e', he', rest⟩)
        · exact Or.inl (Or.inl hd)
        · rcases List.mem_cons.mp he' with rfl | he''
          · exact Or.inl (Or.inr rest)
          · exact Or.inr ⟨e', he'', rest⟩

theorem dblpStep_mem (conferences : List String) (e : DblpFeedEntry)
    (d : List (String × String)) (p : String × String) (hp : p ∈ dblpStep conferences d e) :
    p ∈ d ∨ ∃ conf, dblpEntrySelect conferences e = some conf
      ∧ pyUpper conf = p.1 ∧ e.link = some p.2 := by
  unfold dblpStep at hp
  cases hsel : dblpEntrySelect conferences e with
  | none =>
      rw [hsel] at hp
      exact Or.inl hp
  | some conf =>
      rw [hsel] at hp
      obtain ⟨l, hl⟩ := dblpEntrySelect_link conferences e conf hsel
      rw [hl] at hp
      rcases dictSet_mem d (pyUpper conf) l p hp with heq | hmem
      · subst heq
        exact Or.inr ⟨conf, rfl, rfl, hl⟩
      · exact Or.inl hmem

theorem dblpFold_mem (conferences : List String) (entries : List DblpFeedEntry) :
    ∀ (d : List (String × String)) (p : String × String),
    p ∈ entries.foldl (dblpStep conferences) d →
    p ∈ d ∨ ∃ e ∈ entries, ∃ conf, dblpEntrySelect conferences e = some conf
      ∧ pyUpper conf = p.1 ∧ e.link = some p.2 := by
  induction entries with
  | nil =>
      intro d p hp
      exact Or.inl hp
  | cons e es ih =>
      intro d p hp
      simp only [List.foldl_cons] at hp
      rcases ih (dblpStep conferences d e) p hp with hd | ⟨e', he', rest⟩
      · rcases dblpStep_mem conferences e d p hd with hd' | hsel
        · exact Or.inl hd'
        · exact Or.inr ⟨e, List.mem_cons_self _ _, hsel⟩
      · exact Or.inr ⟨e', List.mem_cons_of_mem _ he', rest⟩

/-- C8, counterexample.  The claim says a feed entry is selected for a
venue token iff the entry's title *or link*, compared case-insensitively,
contains the token.  The code (src/crawler.py, lines 680-686) examines
only the title: here the entry's link contains the token "acl" while its
title does not, and the selection comes out empty, so the claimed "iff"
fails at this input. -/
theorem dblpRssSelect_counterexample :
    pyIn (pyLower "acl") (pyLower "https://dblp.org/db/conf/acl/index") = true
    ∧ dblpRssSelect ["acl"]
        [{ title := some "Recent proceedings", link := some "https://dblp.org/db/conf/acl/index" }]
        = [] := by
  constructor
  · decide
  · decide

/-- C8, amended.  In the DBLP adapter's venue-feed mode, a venue token
has a selection iff some feed entry carrying both a title and a link has
that token as its first configured match — where an entry matches a
token iff the entry's *title*, compared case-insensitively, contains the
token (the link is not examined); each selected key is the upper-cased
matched token, and the stored link (from which the records labeled with
that venue are then fetched) is the link of a selected entry. -/
theorem dblpRssSelect_amended (conferences : List String) (entries : List DblpFeedEntry)
    (k v : String) :
    ((((dblpRssSelect conferences entries).lookup k).isSome = true) ↔
      ∃ e ∈ entries, ∃ conf, dblpEntrySelect conferences e = some conf ∧ pyUpper conf = k)
    ∧ ((k, v) ∈ dblpRssSelect conferences entries →
      ∃ e ∈ entries, ∃ conf, dblpEntrySelect conferences e = some conf
        ∧ pyUpper conf = k ∧ e.link = some v) := by
  constructor
  · unfold dblpRssSelect
    rw [dblpFold_lookup_isSome]
    simp [List.lookup]
  · intro hp
    unfold dblpRssSelect at hp
    rcases dblpFold_mem conferences entries [] (k, v) hp with hd | h
    · simp at hd
    · exact h

/-- A feed entry whose title contains the venue token "icml". -/
def icmlEntry : DblpFeedEntry :=
  { title := some "ICML 2024: proceedings", link := some "L1" }

theorem dblpRssSelect_amended_witness :
    ("ICML", "L1") ∈ dblpRssSelect ["icml"] [icmlEntry]
    ∧ ∃ e ∈ [icmlEntry], ∃ conf, dblpEntrySelect ["icml"] e = some conf
        ∧ pyUpper conf = "ICML" ∧ e.link = some "L1" :=
  ⟨by decide, (dblpRssSelect_amended ["icml"] [icmlEntry] "ICML" "L1").2 (by decide)⟩

/-! ## GenericAPI body dispatch: claims C9 and C4 -/

/-- C9.  In the GenericAPI adapter, when the response JSON body is a
dict whose "data" key is missing, or maps to an empty list or any other
falsy value, the whole dict itself is treated as the single list element
(`json_data.get("data", []) or [json_data]`), so the adapter emits
exactly one record, built from the top-level object, rather than zero
records. -/
theorem fetchApi_data_falsy (name : String) (kvs : List (String × Json))
    (h : pyTruthy (jsonGetD kvs "data" (Json.arr [])) = false) :
    fetchApiItems name (Json.obj kvs) = some [mkApiItem name 0 (Json.obj kvs)] := by
  simp only [fetchApiItems, h, Bool.false_eq_true, if_false, pyIter]
  rfl

theorem fetchApi_data_falsy_witness :
    pyTruthy (jsonGetD [("title", Json.str "T")] "data" (Json.arr [])) = false
    ∧ fetchApiItems "s" (Json.obj [("title", Json.str "T")])
        = some [mkApiItem "s" 0 (Json.obj [("title", Json.str "T")])] :=
  ⟨rfl, fetchApi_data_falsy "s" [("title", Json.str "T")] rfl⟩

/-- C4, the code evaluated at the failing input.  The claim (and the
spec's invariant) says no adapter ever emits a record whose title or
content is null, for any JSON response body.  But `dict.get(key,
default)` returns a stored value even when that value is null, so the
GenericAPI adapter fed the JSON body `[{"title": null}]` emits exactly
one record whose title is Python `None` — and the CitationGraphSearch
(Semantic Scholar) adapter fed `{"data": [{"title": null}]}` does the
same — contradicting the `title: str` declaration of the `FetchedItem`
dataclass and breaking every downstream consumer that concatenates the
title. -/
theorem adapters_null_title_failing_input :
    (fetchApiItems "s" (Json.arr [Json.obj [("title", Json.null)]])).map
        (fun l => l.map RawItem.title) = some [Json.null]
    ∧ (fetchSemanticScholar "s" "q"
        (Json.obj [("data", Json.arr [Json.obj [("title", Json.null)]])])).map
        (fun l => l.map RawItem.title) = some [Json.null] :=
  ⟨rfl, rfl⟩
